import Mathlib

/-!
Shallow embedding of the rich-document-to-Markdown conversion engine of the
`baoyu-skills` repository (files `scripts/markdown.ts` — the variant with
referenced-tweet support — and the referenced-tweet resolver of
`scripts/main.ts`).

Modelling conventions:
* Strings are sequences of Unicode scalar characters (Lean `String`); the
  JavaScript `.length`, `.slice`, `.trim` operations are modelled at the
  character level.
* A TypeScript optional / possibly-`undefined` field becomes `Option`.
  A value that the source checks with `typeof x === "string"` is modelled by
  `Option String` (present exactly when it is a string).  JavaScript
  truthiness on strings (`""` is falsy) is modelled by `truthyStr`.
* A JavaScript `Map` is an insertion-ordered association list: `set`
  overwrites in place or appends, `get` finds the unique binding.
  A JavaScript `Set` of strings is a list without duplicates.
* The `entityMap` object is modelled as its `Object.entries` view: a list of
  (positional index, entry) pairs in iteration order with pairwise-distinct
  indices (JavaScript object keys are unique; for this data they are the
  numeric strings "0", "1", ...).
* `Array.prototype.sort` is stable (ECMAScript 2019); it is modelled by
  `List.insertionSort`, which is stable for the non-strict comparator
  relations used here.
-/

/-- JavaScript whitespace characters handled by this model (ASCII whitespace;
the source data never contains the exotic Unicode space characters). -/
def isJsWS (c : Char) : Bool :=
  c = ' ' || c = '\t' || c = '\n' || c = '\r' || c = '\x0b' || c = '\x0c'

/-- Model of `String.prototype.trim`. -/
def jsTrim (s : String) : String :=
  ⟨(s.data.dropWhile isJsWS).reverse.dropWhile isJsWS |>.reverse⟩

/-- Model of `String.prototype.trimEnd`. -/
def jsTrimEnd (s : String) : String :=
  ⟨(s.data.reverse.dropWhile isJsWS).reverse⟩

/-- Model of `parseInt(s, 10)`: skip leading whitespace, optional sign, then a
non-empty run of decimal digits; `none` models `NaN`. -/
def parseIntJS (s : String) : Option Int :=
  let cs := s.data.dropWhile isJsWS
  let signAndRest : Int × List Char :=
    match cs with
    | '-' :: rest => (-1, rest)
    | '+' :: rest => (1, rest)
    | _ => (1, cs)
  let digits := signAndRest.2.takeWhile Char.isDigit
  if digits.isEmpty then none
  else some (signAndRest.1 * (digits.foldl (fun n c => n * 10 + (c.toNat - 48)) 0 : Nat))

/-- Clamp a JavaScript slice index to `[0, len]`: negative indices count from
the end. -/
def jsClampIdx (len : Nat) (i : Int) : Nat :=
  if i < 0 then ((len : Int) + i).toNat else min i.toNat len

/-- Model of `String.prototype.slice(start, stop)`. -/
def jsSlice (s : String) (start stop : Int) : String :=
  let a := jsClampIdx s.data.length start
  let b := jsClampIdx s.data.length stop
  ⟨(s.data.drop a).take (b - a)⟩

/-- One-argument `String.prototype.slice(start)`: up to the end. -/
def jsSliceFrom (s : String) (start : Int) : String :=
  ⟨s.data.drop (jsClampIdx s.data.length start)⟩

/-- JavaScript truthiness on an optional string: present and non-empty. -/
def truthyStr (o : Option String) : Option String :=
  o.bind (fun s => if s = "" then none else some s)

/-- Model of `Map.prototype.get` on an insertion-ordered association list. -/
def mapGet {κ α : Type} [DecidableEq κ] (m : List (κ × α)) (k : κ) : Option α :=
  (m.find? (fun p => p.1 = k)).map (fun p => p.2)

/-- Model of `Map.prototype.set` on an insertion-ordered association list: overwrite in
place if the key is bound, else append. -/
def mapSet {κ α : Type} [DecidableEq κ] (m : List (κ × α)) (k : κ) (v : α) : List (κ × α) :=
  if m.any (fun p => p.1 = k) then m.map (fun p => if p.1 = k then (k, v) else p)
  else m ++ [(k, v)]

/-- Model of `Set.prototype.has` on a list of strings. -/
def setHas (s : List String) (u : String) : Bool := s.contains u

/-- Model of `Set.prototype.add` on a list of strings. -/
def setAdd (s : List String) (u : String) : List String :=
  if setHas s u then s else s ++ [u]

/-! ## Data model (the shapes consumed by `markdown.ts`) -/

/-- One entry of a media info's `variants` array. -/
structure MediaVariant where
  url : Option String
  bit_rate : Option Int
  content_type : Option String
deriving DecidableEq, Repr

/-- The `preview_image` object of a media info. -/
structure PreviewImage where
  original_img_url : Option String
deriving DecidableEq, Repr

/-- Model of `ArticleMediaInfo`. -/
structure ArticleMediaInfo where
  original_img_url : Option String
  preview_image : Option PreviewImage
  variants : Option (List MediaVariant)
deriving DecidableEq, Repr

/-- One record of the document's `media_entities` array. -/
structure ArticleMediaEntity where
  media_id : Option String
  media_info : Option ArticleMediaInfo
deriving DecidableEq, Repr

/-- One item of an entity value's `data.mediaItems` array (the source accepts
either a `mediaId` or a `media_id` string field). -/
structure MediaItem where
  mediaId : Option String
  media_id : Option String
deriving DecidableEq, Repr

/-- The `data` object of an entity value. -/
structure EntityData where
  url : Option String
  caption : Option String
  mediaItems : Option (List MediaItem)
  tweetId : Option String
deriving DecidableEq, Repr

/-- An entity value: a `type` tag ("MEDIA", "IMAGE", "LINK", "TWEET", ...)
and an optional `data` object. -/
structure EntityValue where
  type : String
  data : Option EntityData
deriving DecidableEq, Repr

/-- One entry of the `entityMap`: a declared logical key (a string, parsed
with `parseInt`) and an entity value. -/
structure ArticleEntityMapEntry where
  key : Option String
  value : Option EntityValue
deriving DecidableEq, Repr

/-- The `Object.entries` view of the `entityMap`: positional index paired
with the entry, in iteration order. -/
def EntityMap := List (Nat × ArticleEntityMapEntry)
deriving DecidableEq, Repr

/-- One element of a block's `entityRanges` array; each field is present
exactly when the corresponding JSON field is a number. -/
structure EntityRange where
  key : Option Int
  offset : Option Int
  length : Option Int
deriving DecidableEq, Repr

/-- One content block. -/
structure ArticleBlock where
  type : Option String
  text : Option String
  entityRanges : Option (List EntityRange)
deriving DecidableEq, Repr

/-- Model of `ArticleContentState`. -/
structure ArticleContentState where
  blocks : Option (List ArticleBlock)
  entityMap : Option EntityMap
deriving DecidableEq, Repr

/-- The document shape (`ArticleEntity` in the source's types). -/
structure ArticleEntity where
  title : Option String
  plain_text : Option String
  preview_text : Option String
  content_state : Option ArticleContentState
  media_entities : Option (List ArticleMediaEntity)
  cover_media : Option ArticleMediaEntity
deriving DecidableEq, Repr

/-- Model of `ReferencedTweetInfo`. -/
structure ReferencedTweetInfo where
  id : String
  url : String
  authorName : Option String
  authorUsername : Option String
  text : Option String
deriving DecidableEq, Repr

/-- Model of `FormatArticleOptions`. -/
structure FormatArticleOptions where
  referencedTweets : Option (List (String × ReferencedTweetInfo)) := none

/-- Model of `FormatArticleResult`. -/
structure FormatArticleResult where
  markdown : String
  coverUrl : Option String
deriving DecidableEq, Repr

/-! ## Small text helpers of `markdown.ts` -/

/-- Model of `escapeMarkdownAlt`: prefix every `[` and `]` with a backslash. -/
def escapeMarkdownAlt (text : String) : String :=
  ⟨text.data.foldr (fun c acc => if c = '[' ∨ c = ']' then '\\' :: c :: acc else c :: acc) []⟩

/-- Replace every maximal run of whitespace by a single space
(`replace(/\s+/g, " ")`); the flag records whether the previous character was
part of a whitespace run. -/
def collapseWSAux : List Char → Bool → List Char
  | [], _ => []
  | c :: rest, inRun =>
    if isJsWS c then
      if inRun then collapseWSAux rest true else ' ' :: collapseWSAux rest true
    else c :: collapseWSAux rest false

/-- Model of `text.split("\n")`: split on every newline character. -/
def splitOnNLAux : List Char → List Char → List (List Char)
  | [], acc => [acc.reverse]
  | c :: rest, acc =>
    if c = '\n' then acc.reverse :: splitOnNLAux rest []
    else splitOnNLAux rest (c :: acc)

/-- Model of `text.split("\n")` on strings. -/
def jsSplitNewline (s : String) : List String :=
  (splitOnNLAux s.data []).map (fun cs => ⟨cs⟩)

/-- Model of `normalizeCaption`. -/
def normalizeCaption (caption : Option String) : String :=
  let trimmed := jsTrim (caption.getD "")
  if trimmed = "" then "" else ⟨collapseWSAux trimmed.data false⟩

/-- Split on occurrences of the pattern `\r?\n+` (leftmost match, maximal
`\n+`).  `acc = some piece` accumulates the current piece (reversed);
`acc = none` means the scan is inside a separator run whose piece has
already been flushed. -/
def splitNLAux : List Char → Option (List Char) → List (List Char)
  | [], some acc => [acc.reverse]
  | [], none => [[]]
  | '\n' :: rest, none => splitNLAux rest none
  | '\n' :: rest, some acc => acc.reverse :: splitNLAux rest none
  | '\r' :: '\n' :: rest, some acc => acc.reverse :: splitNLAux rest none
  | '\r' :: '\n' :: rest, none => [] :: splitNLAux rest none
  | c :: rest, none => splitNLAux rest (some [c])
  | c :: rest, some acc => splitNLAux rest (some (c :: acc))

/-- Model of `s.split(/\r?\n+/)`. -/
def jsSplitNewlineRuns (s : String) : List String :=
  (splitNLAux s.data (some [])).map (fun cs => ⟨cs⟩)

/-- The internal normalisation of `summarizeTweetText`: split the trimmed
text on newline runs, trim each line, drop empty lines, join with spaces. -/
def normalizeTweetText (trimmed : String) : String :=
  String.intercalate " " (((jsSplitNewlineRuns trimmed).map jsTrim).filter (fun l => l ≠ ""))

/-- Model of `summarizeTweetText`. -/
def summarizeTweetText (text : Option String) : String :=
  match text with
  | none => ""
  | some t =>
    let trimmed := jsTrim t
    if trimmed = "" then ""
    else
      let normalized := normalizeTweetText trimmed
      if normalized.length ≤ 280 then normalized
      else jsSlice normalized 0 277 ++ "..."

/-- Model of `buildTweetUrl`. -/
def buildTweetUrl (tweetId : Option String) (username : Option String) : Option String :=
  match truthyStr tweetId with
  | none => none
  | some tid =>
    match truthyStr username with
    | some u => some ("https://x.com/" ++ u ++ "/status/" ++ tid)
    | none => some ("https://x.com/i/web/status/" ++ tid)

/-! ## Entity lookup -/

/-- Model of `EntityLookup`: the two maps built by `buildEntityLookup`. -/
structure EntityLookup where
  byIndex : List (Int × ArticleEntityMapEntry)
  byLogicalKey : List (Int × ArticleEntityMapEntry)
deriving DecidableEq, Repr

/-- The loop body of `buildEntityLookup` over the `Object.entries` view:
every entry is registered under its positional index; it is registered under
its parsed logical key only if that key parses and is not yet bound
(first declaration wins). -/
def buildEntityLookupAux : List (Nat × ArticleEntityMapEntry) → EntityLookup → EntityLookup
  | [], lk => lk
  | (idx, entry) :: rest, lk =>
    let lk1 : EntityLookup := { lk with byIndex := mapSet lk.byIndex (idx : Int) entry }
    let lk2 : EntityLookup :=
      match parseIntJS (entry.key.getD "") with
      | some logicalKey =>
        if (mapGet lk1.byLogicalKey logicalKey).isSome then lk1
        else { lk1 with byLogicalKey := mapSet lk1.byLogicalKey logicalKey entry }
      | none => lk1
    buildEntityLookupAux rest lk2

/-- Model of `buildEntityLookup`. -/
def buildEntityLookup (entityMap : Option EntityMap) : EntityLookup :=
  match entityMap with
  | none => ⟨[], []⟩
  | some em => buildEntityLookupAux em ⟨[], []⟩

/-- The raw string-keyed access `entityMap[String(entityKey)]`. -/
def rawEntityGet (em : EntityMap) (k : Int) : Option ArticleEntityMapEntry :=
  (List.find? (fun p => ((p.1 : Nat) : Int) = k) em).map (fun p => p.2)

/-- Model of `resolveEntityEntry`: logical-key lookup, then positional-index lookup,
then raw map access. -/
def resolveEntityEntry (entityKey : Option Int) (entityMap : Option EntityMap)
    (lookup : EntityLookup) : Option ArticleEntityMapEntry :=
  match entityKey with
  | none => none
  | some k =>
    match mapGet lookup.byLogicalKey k with
    | some e => some e
    | none =>
      match mapGet lookup.byIndex k with
      | some e => some e
      | none =>
        match entityMap with
        | none => none
        | some em => rawEntityGet em k

/-! ## Media URL resolution -/

/-- Model of `s.includes(pat)`. -/
def strContains (s pat : String) : Bool :=
  (List.range (s.data.length + 1)).any (fun i => pat.data.isPrefixOf (s.data.drop i))

/-- Model of `resolveMediaUrl`: original image, else preview image's original, else the
highest-bit-rate video variant, else the first variant. -/
def resolveMediaUrl (info : Option ArticleMediaInfo) : Option String :=
  match info with
  | none => none
  | some i =>
    match truthyStr i.original_img_url with
    | some u => some u
    | none =>
      match truthyStr (i.preview_image.bind (fun p => p.original_img_url)) with
      | some u => some u
      | none =>
        let variants := i.variants.getD []
        let vids := variants.filter (fun v => strContains (v.content_type.getD "") "video")
        let sorted := List.insertionSort
          (fun a b => (b.bit_rate.getD 0) ≤ (a.bit_rate.getD 0)) vids
        match sorted.head?.bind (fun v => v.url) with
        | some u => some u
        | none => variants.head?.bind (fun v => v.url)

/-- Model of `buildMediaById`. -/
def buildMediaById (article : ArticleEntity) : List (String × String) :=
  (article.media_entities.getD []).foldl (fun m entity =>
    match truthyStr entity.media_id with
    | none => m
    | some mid =>
      match truthyStr (resolveMediaUrl entity.media_info) with
      | some url => mapSet m mid url
      | none => m) []

/-- The `addUrl` closure of `collectMediaUrls`, acting on the pair
(collected urls, used-URL set). -/
def addUrlCMU (excludeUrl : Option String) (st : List String × List String)
    (url : Option String) : List String × List String :=
  match truthyStr url with
  | none => st
  | some u =>
    if (truthyStr excludeUrl).isSome ∧ excludeUrl = some u then (st.1, setAdd st.2 u)
    else if setHas st.2 u then st
    else (st.1 ++ [u], setAdd st.2 u)

/-- Model of `collectMediaUrls`: returns the gallery URL list together with the
updated used-URL set. -/
def collectMediaUrls (article : ArticleEntity) (usedUrls : List String)
    (excludeUrl : Option String) : List String × List String :=
  (article.media_entities.getD []).foldl
    (fun st entity => addUrlCMU excludeUrl st (resolveMediaUrl entity.media_info))
    ([], usedUrls)

/-! ## Media–link merge heuristic -/

/-- A media entity collected by `buildMediaLinkMap`: positional index and
parsed logical key. -/
structure MediaEnt where
  idx : Int
  key : Int
deriving DecidableEq, Repr

/-- A link entity collected by `buildMediaLinkMap`: parsed logical key and
URL. -/
structure LinkEnt where
  key : Int
  url : String
deriving DecidableEq, Repr

/-- The media entities of the entity map (type "MEDIA" or "IMAGE", with a
value and a parseable logical key), in iteration order. -/
def mediaEntriesOf (em : EntityMap) : List MediaEnt :=
  em.filterMap (fun p =>
    match p.2.value with
    | none => none
    | some v =>
      match parseIntJS (p.2.key.getD "") with
      | none => none
      | some k =>
        if v.type = "MEDIA" ∨ v.type = "IMAGE" then some ⟨(p.1 : Int), k⟩ else none)

/-- The link entities of the entity map (type "LINK" with a string URL, a
value and a parseable logical key), in iteration order. -/
def linkEntriesOf (em : EntityMap) : List LinkEnt :=
  em.filterMap (fun p =>
    match p.2.value with
    | none => none
    | some v =>
      match parseIntJS (p.2.key.getD "") with
      | none => none
      | some k =>
        if v.type = "LINK" then (v.data.bind (fun d => d.url)).map (fun u => (⟨k, u⟩ : LinkEnt))
        else none)

/-- The pairing loop of `buildMediaLinkMap`: for each media entity (in sorted
order) pick `pool.findIndex(l => l.key > media.key)`, or index 0 when none,
remove that link from the pool (`splice`) and record the mapping under both
the positional index and the logical key; stop when the pool is empty. -/
def mlmLoop : List MediaEnt → List LinkEnt → List (Int × String) → List (Int × String)
  | [], _, m => m
  | media :: ms, pool, m =>
    match pool with
    | [] => m
    | p :: _ =>
      let linkIdx := (pool.findIdx? (fun l => media.key < l.key)).getD 0
      let link := pool.getD linkIdx p
      mlmLoop ms (pool.eraseIdx linkIdx)
        (mapSet (mapSet m media.idx link.url) media.key link.url)

/-- Model of `buildMediaLinkMap`. -/
def buildMediaLinkMap (entityMap : Option EntityMap) : List (Int × String) :=
  match entityMap with
  | none => []
  | some em =>
    let mediaEntries := mediaEntriesOf em
    let linkEntries := linkEntriesOf em
    if mediaEntries.isEmpty ∨ linkEntries.isEmpty then []
    else
      mlmLoop (List.insertionSort (fun a b => a.key ≤ b.key) mediaEntries)
              (List.insertionSort (fun a b => a.key ≤ b.key) linkEntries) []

/-! ## Inline range renderer -/

/-- The validity filter of `renderInlineLinks`: numeric key, numeric offset,
positive length. -/
def validInlineRange (r : EntityRange) : Bool :=
  r.key.isSome && r.offset.isSome && (match r.length with | some l => decide (0 < l) | none => false)

/-- One iteration of the splicing loop of `renderInlineLinks`. -/
def inlineRangeStep (entityMap : Option EntityMap) (lookup : EntityLookup)
    (mediaLinkMap : List (Int × String)) (result : String) (range : EntityRange) : String :=
  let offset := range.offset.getD 0
  let len := range.length.getD 0
  let key := range.key.getD 0
  match resolveEntityEntry (some key) entityMap lookup with
  | none => result
  | some entry =>
    match entry.value with
    | none => result
    | some value =>
      let url : Option String :=
        if value.type = "LINK" ∧ (value.data.bind (fun d => d.url)).isSome then
          value.data.bind (fun d => d.url)
        else if value.type = "MEDIA" ∨ value.type = "IMAGE" then mapGet mediaLinkMap key
        else none
      match truthyStr url with
      | none => result
      | some u =>
        let linkText := jsSlice result offset (offset + len)
        jsSlice result 0 offset ++ "[" ++ linkText ++ "](" ++ u ++ ")"
          ++ jsSliceFrom result (offset + len)

/-- Model of `renderInlineLinks`: filter the valid ranges, sort them by descending
offset (stably), then splice a Markdown hyperlink for each range that
resolves to a URL. -/
def renderInlineLinks (text : String) (entityRanges : List EntityRange)
    (entityMap : Option EntityMap) (entityLookup : EntityLookup)
    (mediaLinkMap : List (Int × String)) : String :=
  if entityMap.isNone ∨ entityRanges.isEmpty then text
  else
    let valid := entityRanges.filter validInlineRange
    if valid.isEmpty then text
    else
      let sorted := List.insertionSort
        (fun a b => (b.offset.getD 0) ≤ (a.offset.getD 0)) valid
      sorted.foldl (inlineRangeStep entityMap entityLookup mediaLinkMap) text

/-! ## Entity media / tweet line resolution -/

/-- The media id of a `mediaItems` item: a string `mediaId` field, else a
string `media_id` field. -/
def mediaItemId (item : MediaItem) : Option String :=
  match item.mediaId with
  | some s => some s
  | none => item.media_id

/-- Model of `resolveEntityMediaLines`: image lines for a MEDIA/IMAGE entity, threaded
through the used-URL set (returns the emitted lines and the updated set). -/
def resolveEntityMediaLines (entityKey : Option Int) (entityMap : Option EntityMap)
    (entityLookup : EntityLookup) (mediaById : List (String × String))
    (usedUrls : List String) : List String × List String :=
  match entityKey with
  | none => ([], usedUrls)
  | some _ =>
    match (resolveEntityEntry entityKey entityMap entityLookup).bind (fun e => e.value) with
    | none => ([], usedUrls)
    | some value =>
      if value.type ≠ "MEDIA" ∧ value.type ≠ "IMAGE" then ([], usedUrls)
      else
        let caption := normalizeCaption (value.data.bind (fun d => d.caption))
        let altText := if caption ≠ "" then escapeMarkdownAlt caption else ""
        let mediaItems := (value.data.bind (fun d => d.mediaItems)).getD []
        let step1 := mediaItems.foldl (fun (st : List String × List String) item =>
          let urlOpt : Option String :=
            match truthyStr (mediaItemId item) with
            | some mid => mapGet mediaById mid
            | none => none
          match truthyStr urlOpt with
          | some url =>
            if setHas st.2 url then st
            else (st.1 ++ ["![" ++ altText ++ "](" ++ url ++ ")"], setAdd st.2 url)
          | none => st) ([], usedUrls)
        match truthyStr (value.data.bind (fun d => d.url)) with
        | some fallbackUrl =>
          if setHas step1.2 fallbackUrl then step1
          else (step1.1 ++ ["![" ++ altText ++ "](" ++ fallbackUrl ++ ")"],
                setAdd step1.2 fallbackUrl)
        | none => step1

/-- Model of `resolveEntityTweetLines`: quote lines for a TWEET entity. -/
def resolveEntityTweetLines (entityKey : Option Int) (entityMap : Option EntityMap)
    (entityLookup : EntityLookup)
    (referencedTweets : Option (List (String × ReferencedTweetInfo))) : List String :=
  match entityKey with
  | none => []
  | some _ =>
    match (resolveEntityEntry entityKey entityMap entityLookup).bind (fun e => e.value) with
    | none => []
    | some value =>
      if value.type ≠ "TWEET" then []
      else
        let tweetId := (value.data.bind (fun d => d.tweetId)).getD ""
        if tweetId = "" then []
        else
          let referenced := referencedTweets.bind (fun m => mapGet m tweetId)
          let url := match referenced with
            | some r => r.url
            | none =>
              match buildTweetUrl (some tweetId) none with
              | some u => u
              | none => "https://x.com/i/web/status/" ++ tweetId
          let aName := truthyStr (referenced.bind (fun r => r.authorName))
          let aUser := truthyStr (referenced.bind (fun r => r.authorUsername))
          let authorText : Option String :=
            match aName, aUser with
            | some n, some u => some (n ++ " (@" ++ u ++ ")")
            | none, some u => some ("@" ++ u)
            | _, none => referenced.bind (fun r => r.authorName)
          let firstLine := "> 引用推文" ++
            (match truthyStr authorText with
             | some t => "：" ++ t
             | none => "")
          let summary := summarizeTweetText (referenced.bind (fun r => r.text))
          [firstLine] ++ (if summary ≠ "" then ["> " ++ summary] else []) ++ ["> " ++ url]

/-! ## Block stream renderer -/

/-- The mutable rendering state of `renderContentBlocks`. -/
structure RenderState where
  lines : List String
  previousKind : Option String
  listKind : Option String
  orderedIndex : Nat
  inCodeBlock : Bool
  usedUrls : List String
deriving DecidableEq, Repr

/-- Model of `pushBlock`: append the chunk's lines, preceded by a blank separator line
unless this chunk is empty, nothing was emitted yet, or the previous chunk
has the same kind and that kind is list, quote, or media. -/
def pushBlock (st : RenderState) (blockLines : List String) (kind : String) : RenderState :=
  if blockLines.isEmpty then st
  else
    let needSep := ¬st.lines.isEmpty ∧ st.previousKind.isSome ∧
      ¬(st.previousKind = some kind ∧ (kind = "list" ∨ kind = "quote" ∨ kind = "media"))
    { st with
      lines := st.lines ++ (if needSep then [""] else []) ++ blockLines,
      previousKind := some kind }

/-- Model of `collectMediaLines` (the closure inside `renderContentBlocks`). -/
def collectMediaLinesB (entityMap : Option EntityMap) (lookup : EntityLookup)
    (mediaById : List (String × String)) (block : ArticleBlock)
    (usedUrls : List String) : List String × List String :=
  (block.entityRanges.getD []).foldl (fun (st : List String × List String) range =>
    match range.key with
    | none => st
    | some _ =>
      let r := resolveEntityMediaLines range.key entityMap lookup mediaById st.2
      (st.1 ++ r.1, r.2)) ([], usedUrls)

/-- Model of `collectTweetLines`. -/
def collectTweetLinesB (entityMap : Option EntityMap) (lookup : EntityLookup)
    (referencedTweets : Option (List (String × ReferencedTweetInfo)))
    (block : ArticleBlock) : List String :=
  (block.entityRanges.getD []).foldl (fun acc range =>
    match range.key with
    | none => acc
    | some _ => acc ++ resolveEntityTweetLines range.key entityMap lookup referencedTweets) []

/-- First-occurrence deduplication with an explicit seen set, as
`[...new Set(xs)]`. -/
def uniqueFirstAux : List String → List String → List String
  | [], _ => []
  | a :: l, seen =>
    if seen.contains a then uniqueFirstAux l seen
    else a :: uniqueFirstAux l (seen ++ [a])

/-- Model of `[...new Set(xs)]`. -/
def uniqueFirst (l : List String) : List String := uniqueFirstAux l []

/-- Model of `collectLinkLines`. -/
def collectLinkLinesB (entityMap : Option EntityMap) (lookup : EntityLookup)
    (block : ArticleBlock) : List String :=
  uniqueFirst ((block.entityRanges.getD []).foldl (fun acc range =>
    match range.key with
    | none => acc
    | some _ =>
      match (resolveEntityEntry range.key entityMap lookup).bind (fun e => e.value) with
      | none => acc
      | some value =>
        if value.type ≠ "LINK" then acc
        else
          let url := (value.data.bind (fun d => d.url)).getD ""
          if url ≠ "" then acc ++ [url] else acc) [])

/-- Does the trimmed text match the media placeholder pattern
`/^XIMGPH_\d+$/`? -/
def isXimgphToken (t : String) : Bool :=
  "XIMGPH_".data.isPrefixOf t.data
    && decide (t.data.drop 7 ≠ [])
    && (t.data.drop 7).all Char.isDigit

/-- Model of `pushTrailingMedia(collectMediaLines(block))`. -/
def pushTrailingMediaB (entityMap : Option EntityMap) (lookup : EntityLookup)
    (mediaById : List (String × String)) (st : RenderState)
    (block : ArticleBlock) : RenderState :=
  let r := collectMediaLinesB entityMap lookup mediaById block st.usedUrls
  let st := { st with usedUrls := r.2 }
  if ¬r.1.isEmpty then pushBlock st r.1 "media" else st

/-- Close an open code fence (`lines.push("```"); inCodeBlock = false;
previousKind = "code"`). -/
def closeFence (st : RenderState) : RenderState :=
  if st.inCodeBlock then
    { st with lines := st.lines ++ ["```"], inCodeBlock := false, previousKind := some "code" }
  else st

/-- The body of the `for (const block of blocks)` loop of
`renderContentBlocks`. -/
def renderBlockStep (entityMap : Option EntityMap) (lookup : EntityLookup)
    (mediaById : List (String × String)) (mediaLinkMap : List (Int × String))
    (referencedTweets : Option (List (String × ReferencedTweetInfo)))
    (st : RenderState) (block : ArticleBlock) : RenderState :=
  let type := block.type.getD "unstyled"
  let rawText := block.text.getD ""
  let ranges := block.entityRanges.getD []
  let text :=
    if type ≠ "atomic" ∧ type ≠ "code-block"
    then renderInlineLinks rawText ranges entityMap lookup mediaLinkMap
    else rawText
  if type = "code-block" then
    let st :=
      if ¬st.inCodeBlock then
        { st with
          lines := st.lines ++ (if ¬st.lines.isEmpty then [""] else []) ++ ["```"],
          inCodeBlock := true }
      else st
    { st with
      lines := st.lines ++ [text]
      previousKind := some "code"
      listKind := none
      orderedIndex := 0 }
  else if type = "atomic" then
    let st := closeFence st
    let st := { st with listKind := none, orderedIndex := 0 }
    let tweetLines := collectTweetLinesB entityMap lookup referencedTweets block
    let st := if ¬tweetLines.isEmpty then pushBlock st tweetLines "quote" else st
    let r := collectMediaLinesB entityMap lookup mediaById block st.usedUrls
    let st := { st with usedUrls := r.2 }
    let st := if ¬r.1.isEmpty then pushBlock st r.1 "media" else st
    let linkLines := collectLinkLinesB entityMap lookup block
    if ¬linkLines.isEmpty then pushBlock st linkLines "text" else st
  else
    let st := closeFence st
    if type = "unordered-list-item" then
      let st := { st with listKind := some "unordered", orderedIndex := 0 }
      let st := pushBlock st ["- " ++ text] "list"
      pushTrailingMediaB entityMap lookup mediaById st block
    else if type = "ordered-list-item" then
      let st := if st.listKind ≠ some "ordered" then { st with orderedIndex := 0 } else st
      let st := { st with listKind := some "ordered", orderedIndex := st.orderedIndex + 1 }
      let st := pushBlock st [toString st.orderedIndex ++ ". " ++ text] "list"
      pushTrailingMediaB entityMap lookup mediaById st block
    else
      let st := { st with listKind := none, orderedIndex := 0 }
      if type = "header-one" then
        pushTrailingMediaB entityMap lookup mediaById (pushBlock st ["# " ++ text] "heading") block
      else if type = "header-two" then
        pushTrailingMediaB entityMap lookup mediaById (pushBlock st ["## " ++ text] "heading") block
      else if type = "header-three" then
        pushTrailingMediaB entityMap lookup mediaById (pushBlock st ["### " ++ text] "heading") block
      else if type = "header-four" then
        pushTrailingMediaB entityMap lookup mediaById (pushBlock st ["#### " ++ text] "heading") block
      else if type = "header-five" then
        pushTrailingMediaB entityMap lookup mediaById (pushBlock st ["##### " ++ text] "heading") block
      else if type = "header-six" then
        pushTrailingMediaB entityMap lookup mediaById (pushBlock st ["###### " ++ text] "heading") block
      else if type = "blockquote" then
        let quoteLines := if text.length > 0 then jsSplitNewline text else [""]
        pushTrailingMediaB entityMap lookup mediaById
          (pushBlock st (quoteLines.map (fun line => "> " ++ line)) "quote") block
      else
        if isXimgphToken (jsTrim text) then
          pushTrailingMediaB entityMap lookup mediaById st block
        else
          pushTrailingMediaB entityMap lookup mediaById (pushBlock st [text] "text") block

/-- Model of `renderContentBlocks`: returns the emitted lines and the updated used-URL
set; an open code fence at end of document is force-closed. -/
def renderContentBlocks (blocks : List ArticleBlock) (entityMap : Option EntityMap)
    (lookup : EntityLookup) (mediaById : List (String × String))
    (usedUrls : List String) (mediaLinkMap : List (Int × String))
    (referencedTweets : Option (List (String × ReferencedTweetInfo)))
    : List String × List String :=
  let st := blocks.foldl (renderBlockStep entityMap lookup mediaById mediaLinkMap referencedTweets)
    ⟨[], none, none, 0, false, usedUrls⟩
  (st.lines ++ (if st.inCodeBlock then ["```"] else []), st.usedUrls)

/-! ## Top-level assembler -/

/-- Model of `coerceArticleEntity`: the input is usable when it has a string title,
string plain text, string preview text, or a (truthy) content state. -/
def coerceArticleEntity (a : ArticleEntity) : Option ArticleEntity :=
  if a.title.isSome ∨ a.plain_text.isSome ∨ a.preview_text.isSome ∨ a.content_state.isSome
  then some a else none

/-- Model of `extractReferencedTweetIds`: the tweet ids of TWEET entities, first
appearance first, deduplicated. -/
def extractReferencedTweetIds (article : ArticleEntity) : List String :=
  match coerceArticleEntity article with
  | none => []
  | some candidate =>
    match candidate.content_state.bind (fun cs => cs.entityMap) with
    | none => []
    | some em =>
      (em.foldl (fun (acc : List String × List String) p =>
        match p.2.value with
        | none => acc
        | some v =>
          if v.type ≠ "TWEET" then acc
          else
            let tid := (v.data.bind (fun d => d.tweetId)).getD ""
            if tid = "" ∨ acc.2.contains tid then acc
            else (acc.1 ++ [tid], acc.2 ++ [tid])) ([], [])).1

/-- A JSON value, for modelling `JSON.stringify(article, null, 2)`. -/
inductive JVal where
  | jnull
  | jbool (b : Bool)
  | jnum (n : Int)
  | jstr (s : String)
  | jarr (xs : List JVal)
  | jobj (fields : List (String × JVal))
deriving Repr

/-- JSON string escaping for the characters that occur in this model. -/
def jsonEscapeChar (c : Char) : String :=
  if c = '"' then "\\\""
  else if c = '\\' then "\\\\"
  else if c = '\n' then "\\n"
  else if c = '\r' then "\\r"
  else if c = '\t' then "\\t"
  else String.singleton c

/-- A run of `n` spaces. -/
def jIndent (n : Nat) : String := String.mk (List.replicate n ' ')

mutual

/-- Model of `JSON.stringify(v, null, 2)` at indentation depth `ind`. -/
def jPretty (ind : Nat) : JVal → String
  | .jnull => "null"
  | .jbool b => if b then "true" else "false"
  | .jnum n => toString n
  | .jstr s => "\"" ++ String.join (s.data.map jsonEscapeChar) ++ "\""
  | .jarr xs =>
    let elems := jPrettyArr ind xs
    if elems.isEmpty then "[]"
    else "[\n" ++ String.intercalate ",\n" elems ++ "\n" ++ jIndent ind ++ "]"
  | .jobj fs =>
    let elems := jPrettyObj ind fs
    if elems.isEmpty then "\x7b\x7d"
    else "\x7b\n" ++ String.intercalate ",\n" elems ++ "\n" ++ jIndent ind ++ "\x7d"

/-- The rendered elements of a JSON array, one per line. -/
def jPrettyArr (ind : Nat) : List JVal → List String
  | [] => []
  | x :: xs => (jIndent (ind + 2) ++ jPretty (ind + 2) x) :: jPrettyArr ind xs

/-- The rendered fields of a JSON object, one per line. -/
def jPrettyObj (ind : Nat) : List (String × JVal) → List String
  | [] => []
  | f :: fs =>
    (jIndent (ind + 2) ++ "\"" ++ String.join (f.1.data.map jsonEscapeChar)
      ++ "\": " ++ jPretty (ind + 2) f.2) :: jPrettyObj ind fs

end

/-- An optional field of a JSON object: present only when the value is. -/
def jField (name : String) (v : Option JVal) : List (String × JVal) :=
  match v with
  | some x => [(name, x)]
  | none => []

/-- Model of `MediaVariant` as a JSON value. -/
def variantToJVal (v : MediaVariant) : JVal :=
  .jobj (jField "url" (v.url.map .jstr) ++ jField "bit_rate" (v.bit_rate.map .jnum)
    ++ jField "content_type" (v.content_type.map .jstr))

/-- Model of `ArticleMediaInfo` as a JSON value. -/
def mediaInfoToJVal (i : ArticleMediaInfo) : JVal :=
  .jobj (jField "original_img_url" (i.original_img_url.map .jstr)
    ++ jField "preview_image"
        (i.preview_image.map (fun p => .jobj (jField "original_img_url" (p.original_img_url.map .jstr))))
    ++ jField "variants" (i.variants.map (fun vs => .jarr (vs.map variantToJVal))))

/-- Model of `ArticleMediaEntity` as a JSON value. -/
def mediaEntityToJVal (e : ArticleMediaEntity) : JVal :=
  .jobj (jField "media_id" (e.media_id.map .jstr)
    ++ jField "media_info" (e.media_info.map mediaInfoToJVal))

/-- Model of `MediaItem` as a JSON value. -/
def mediaItemToJVal (m : MediaItem) : JVal :=
  .jobj (jField "mediaId" (m.mediaId.map .jstr) ++ jField "media_id" (m.media_id.map .jstr))

/-- Model of `EntityData` as a JSON value. -/
def entityDataToJVal (d : EntityData) : JVal :=
  .jobj (jField "url" (d.url.map .jstr) ++ jField "caption" (d.caption.map .jstr)
    ++ jField "mediaItems" (d.mediaItems.map (fun ms => .jarr (ms.map mediaItemToJVal)))
    ++ jField "tweetId" (d.tweetId.map .jstr))

/-- Model of `EntityValue` as a JSON value. -/
def entityValueToJVal (v : EntityValue) : JVal :=
  .jobj ([("type", .jstr v.type)] ++ jField "data" (v.data.map entityDataToJVal))

/-- Model of `ArticleEntityMapEntry` as a JSON value. -/
def entryToJVal (e : ArticleEntityMapEntry) : JVal :=
  .jobj (jField "key" (e.key.map .jstr) ++ jField "value" (e.value.map entityValueToJVal))

/-- Model of `EntityRange` as a JSON value. -/
def rangeToJVal (r : EntityRange) : JVal :=
  .jobj (jField "key" (r.key.map .jnum) ++ jField "offset" (r.offset.map .jnum)
    ++ jField "length" (r.length.map .jnum))

/-- Model of `ArticleBlock` as a JSON value. -/
def blockToJVal (b : ArticleBlock) : JVal :=
  .jobj (jField "type" (b.type.map .jstr) ++ jField "text" (b.text.map .jstr)
    ++ jField "entityRanges" (b.entityRanges.map (fun rs => .jarr (rs.map rangeToJVal))))

/-- Model of `ArticleContentState` as a JSON value. -/
def contentStateToJVal (cs : ArticleContentState) : JVal :=
  .jobj (jField "blocks" (cs.blocks.map (fun bs => .jarr (bs.map blockToJVal)))
    ++ jField "entityMap"
        (cs.entityMap.map (fun em => .jobj (em.map (fun p => (toString p.1, entryToJVal p.2))))))

/-- The document as a JSON value; fields absent in the document (JavaScript
`undefined`) are skipped, as `JSON.stringify` does. -/
def articleToJVal (a : ArticleEntity) : JVal :=
  .jobj (jField "title" (a.title.map .jstr)
    ++ jField "plain_text" (a.plain_text.map .jstr)
    ++ jField "preview_text" (a.preview_text.map .jstr)
    ++ jField "content_state" (a.content_state.map contentStateToJVal)
    ++ jField "media_entities" (a.media_entities.map (fun ms => .jarr (ms.map mediaEntityToJVal)))
    ++ jField "cover_media" (a.cover_media.map mediaEntityToJVal))

/-- Model of `JSON.stringify(article, null, 2)`. -/
def jsonStringifyArticle (a : ArticleEntity) : String := jPretty 0 (articleToJVal a)

/-- Model of `formatArticleMarkdown`. -/
def formatArticleMarkdown (article : ArticleEntity)
    (options : FormatArticleOptions) : FormatArticleResult :=
  match coerceArticleEntity article with
  | none =>
    ⟨"```json\n" ++ jsonStringifyArticle article ++ "\n```", none⟩
  | some candidate =>
    let usedUrls : List String := []
    let mediaById := buildMediaById candidate
    let title := jsTrim (candidate.title.getD "")
    let lines : List String := if title ≠ "" then ["# " ++ title] else []
    let coverUrl := resolveMediaUrl (candidate.cover_media.bind (fun c => c.media_info))
    let usedUrls := match truthyStr coverUrl with
      | some c => setAdd usedUrls c
      | none => usedUrls
    let blocks := candidate.content_state.bind (fun cs => cs.blocks)
    let entityMap := candidate.content_state.bind (fun cs => cs.entityMap)
    let entityLookup := buildEntityLookup entityMap
    let step :=
      if ¬(blocks.getD []).isEmpty then
        let mediaLinkMap := buildMediaLinkMap entityMap
        let r := renderContentBlocks (blocks.getD []) entityMap entityLookup mediaById
          usedUrls mediaLinkMap options.referencedTweets
        if ¬r.1.isEmpty then
          (lines ++ (if ¬lines.isEmpty then [""] else []) ++ r.1, r.2)
        else (lines, r.2)
      else
        match candidate.plain_text with
        | some pt => (lines ++ (if ¬lines.isEmpty then [""] else []) ++ [jsTrim pt], usedUrls)
        | none =>
          match candidate.preview_text with
          | some pv => (lines ++ (if ¬lines.isEmpty then [""] else []) ++ [jsTrim pv], usedUrls)
          | none => (lines, usedUrls)
    let mediaUrls := (collectMediaUrls candidate step.2 coverUrl).1
    let finalLines :=
      if ¬mediaUrls.isEmpty then
        step.1 ++ ["", "## Media", ""] ++ mediaUrls.map (fun url => "![](" ++ url ++ ")")
      else step.1
    ⟨jsTrimEnd (String.intercalate "\n" finalLines), coverUrl⟩

/-! ## Referenced-content resolver (`main.ts`) -/

/-- The author object found at
`tweet.core.user_results.result.core` / `.legacy`. -/
structure TweetUser where
  name : Option String
  screen_name : Option String
deriving DecidableEq, Repr

/-- The `tweet.legacy` object. -/
structure TweetLegacy where
  full_text : Option String
  text : Option String
deriving DecidableEq, Repr

/-- The raw tweet entity returned by the external lookup.  `userCore` models
`tweet.core.user_results.result.core`, `userLegacy` the sibling `legacy`
object, and `noteText` models
`tweet.note_tweet.note_tweet_results.result.text` (each `Option` collapses
the optional chain). -/
structure FetchedTweet where
  rest_id : Option String
  userCore : Option TweetUser
  userLegacy : Option TweetUser
  noteText : Option String
  legacy : Option TweetLegacy
deriving DecidableEq, Repr

/-- Model of `extractReferencedTweetInfo`. -/
def extractReferencedTweetInfo (tweet : FetchedTweet) (fallbackTweetId : String) :
    ReferencedTweetInfo :=
  let authorName := match tweet.userCore.bind (fun u => u.name) with
    | some n => some n
    | none => tweet.userLegacy.bind (fun u => u.name)
  let authorUsername := match tweet.userCore.bind (fun u => u.screen_name) with
    | some n => some n
    | none => tweet.userLegacy.bind (fun u => u.screen_name)
  let text := match tweet.noteText with
    | some t => some t
    | none =>
      match tweet.legacy.bind (fun l => l.full_text) with
      | some t => some t
      | none => tweet.legacy.bind (fun l => l.text)
  let tweetId := match tweet.rest_id with
    | some r => if r.length > 0 then r else fallbackTweetId
    | none => fallbackTweetId
  let url := match truthyStr authorUsername with
    | some u => "https://x.com/" ++ u ++ "/status/" ++ tweetId
    | none => "https://x.com/i/web/status/" ++ tweetId
  ⟨tweetId, url, authorName, authorUsername, text⟩

/-- The body of the `for (const id of ids)` loop of
`resolveReferencedTweetsFromArticle`: on success store the extracted info for
the id; on failure append a log line and store the degraded id-only record. -/
def resolveTweetStep (fetch : String → Except String FetchedTweet)
    (acc : List (String × ReferencedTweetInfo) × List String) (id : String)
    : List (String × ReferencedTweetInfo) × List String :=
  match fetch id with
  | .ok tweet => (mapSet acc.1 id (extractReferencedTweetInfo tweet id), acc.2)
  | .error errMsg =>
    (mapSet acc.1 id ⟨id, "https://x.com/i/web/status/" ++ id, none, none, none⟩,
     acc.2 ++ ["[x-to-markdown] Failed to fetch referenced tweet " ++ id ++ ": " ++ errMsg])

/-- Model of `resolveReferencedTweetsFromArticle`, with the external lookup
(`fetchXTweet`) supplied as an oracle (`Except` models a thrown error) and
the emitted log lines returned alongside the id → info map. -/
def resolveReferencedTweetsFromArticle (article : ArticleEntity)
    (fetch : String → Except String FetchedTweet)
    : List (String × ReferencedTweetInfo) × List String :=
  (extractReferencedTweetIds article).foldl (resolveTweetStep fetch) ([], [])

/-! ## Specification-side definitions and concrete inputs -/

/-- Modelled from the spec (§4.3 wording): the first remaining link entity
whose key is strictly greater than the media's key, together with the rest of
the pool. -/
def takeFirstGreaterLink (mkey : Int) : List LinkEnt → Option (LinkEnt × List LinkEnt)
  | [] => none
  | l :: ls =>
    if mkey < l.key then some (l, ls)
    else (takeFirstGreaterLink mkey ls).map (fun r => (r.1, l :: r.2))

/-- Modelled from the spec (§4.3 wording): the link consumed for a media
entity — the first remaining link with a strictly greater key, or, when no
remaining link has a strictly greater key, the first remaining link;
`none` when the pool is exhausted. -/
def specConsumeLink (mkey : Int) (pool : List LinkEnt) : Option (LinkEnt × List LinkEnt) :=
  match takeFirstGreaterLink mkey pool with
  | some r => some r
  | none =>
    match pool with
    | [] => none
    | l :: ls => some (l, ls)

/-- Modelled from the spec (§4.3 wording): process the media entities in
order, consuming one link each and recording the mapping under the media's
positional index and logical key; once the pool is exhausted, later media
entities receive no mapping. -/
def specPairLoop : List MediaEnt → List LinkEnt → List (Int × String) → List (Int × String)
  | [], _, m => m
  | media :: ms, pool, m =>
    match specConsumeLink media.key pool with
    | none => m
    | some r =>
      specPairLoop ms r.2 (mapSet (mapSet m media.idx r.1.url) media.key r.1.url)

/-- Modelled from the spec (§4.3 wording): sort the media and link groups
ascending by key and run the pairing loop; with no link entities the map is
empty. -/
def specMediaLinkMap (entityMap : Option EntityMap) : List (Int × String) :=
  match entityMap with
  | none => []
  | some em =>
    specPairLoop (List.insertionSort (fun a b => a.key ≤ b.key) (mediaEntriesOf em))
                 (List.insertionSort (fun a b => a.key ≤ b.key) (linkEntriesOf em)) []

/-- The number of (possibly overlapping) occurrences of `pat` as a substring
of `s` at distinct positions. -/
def countOccs (pat s : String) : Nat :=
  (List.range s.data.length).countP (fun i => pat.data.isPrefixOf (s.data.drop i))

/-- A LINK entity value carrying a URL. -/
def exLinkValue (u : String) : EntityValue := ⟨"LINK", some ⟨some u, none, none, none⟩⟩

/-- A MEDIA entity value with no data. -/
def exMediaValue : EntityValue := ⟨"MEDIA", none⟩

/-- The merge-heuristic example: media entities with logical keys 1, 3, 5 and
link entities with logical keys 2, 4. -/
def exMergeMap : EntityMap :=
  [(0, ⟨some "1", some exMediaValue⟩),
   (1, ⟨some "2", some (exLinkValue "https://link2.example")⟩),
   (2, ⟨some "3", some exMediaValue⟩),
   (3, ⟨some "4", some (exLinkValue "https://link4.example")⟩),
   (4, ⟨some "5", some exMediaValue⟩)]

/-- An entity map holding two LINK entities at logical keys 0 and 1. -/
def exTwoLinkMap : EntityMap :=
  [(0, ⟨some "0", some (exLinkValue "https://u.example")⟩),
   (1, ⟨some "1", some (exLinkValue "https://v.example")⟩)]

/-- A range of length 1 at offset 0 pointing at entity key 0. -/
def exRangeA : EntityRange := ⟨some 0, some 0, some 1⟩

/-- A range of length 1 at offset 0 pointing at entity key 1. -/
def exRangeB : EntityRange := ⟨some 1, some 0, some 1⟩

/-- An entity map with a single LINK entity, referenced twice from one
block's ranges. -/
def exDupLinkMap : EntityMap :=
  [(0, ⟨some "0", some (exLinkValue "https://e.example/x")⟩)]

/-- The block "ab" whose two ranges both point at entity key 0. -/
def exDupLinkBlock : ArticleBlock :=
  ⟨some "unstyled", some "ab", some [⟨some 0, some 0, some 1⟩, ⟨some 0, some 1, some 1⟩]⟩

/-- A document whose single block emits the same link URL twice inline. -/
def exDupLinkArticle : ArticleEntity :=
  ⟨none, none, none, some ⟨some [exDupLinkBlock], some exDupLinkMap⟩, none, none⟩

/-- A text-only block of the given type. -/
def exTextBlock (ty tx : String) : ArticleBlock := ⟨some ty, some tx, none⟩

/-- The block-grouping example of the spec. -/
def exGroupingBlocks : List ArticleBlock :=
  [exTextBlock "header-one" "Title", exTextBlock "unordered-list-item" "A",
   exTextBlock "unordered-list-item" "B", exTextBlock "header-two" "Next"]

/-- The empty document: no recognizable field at all. -/
def exEmptyArticle : ArticleEntity := ⟨none, none, none, none, none, none⟩

/-- A document referencing tweet id "999" from a TWEET entity. -/
def exTweetArticle : ArticleEntity :=
  ⟨none, none, none,
   some ⟨some [], some [(0, ⟨some "0", some ⟨"TWEET", some ⟨none, none, none, some "999"⟩⟩⟩)]⟩,
   none, none⟩

/-- An external lookup that fails for every id. -/
def exFailingFetch : String → Except String FetchedTweet := fun _ => .error "HTTP 404"

/-- An entity map declaring the same logical key "7" twice. -/
def exDupKeyMap : EntityMap :=
  [(0, ⟨some "7", some (exLinkValue "https://first.example")⟩),
   (1, ⟨some "7", some (exLinkValue "https://second.example")⟩)]

/-- A document with three media entities, two of which share one URL. -/
def exGalleryArticle : ArticleEntity :=
  ⟨none, none, none, some ⟨none, none⟩,
   some [⟨some "m1", some ⟨some "https://a.example", none, none⟩⟩,
         ⟨some "m2", some ⟨some "https://a.example", none, none⟩⟩,
         ⟨some "m3", some ⟨some "https://b.example", none, none⟩⟩],
   none⟩

/-! ## Claim theorems -/

/-- C1 (counterexample): on the entity map with media keys [1, 3, 5] and link
keys [2, 4], media key 1 maps to link 2's URL and media key 3 to link 4's
URL as claimed, but media key 5 receives NO mapping (the claim asserts it
wraps around to link 2's URL): the pairing loop stops as soon as the link
pool is exhausted. -/
theorem C1_counterexample :
    mapGet (buildMediaLinkMap (some exMergeMap)) 1 = some "https://link2.example"
    ∧ mapGet (buildMediaLinkMap (some exMergeMap)) 3 = some "https://link4.example"
    ∧ mapGet (buildMediaLinkMap (some exMergeMap)) 5 = none := by
  decide

/-- C1 (amended): for media keys [1, 3, 5] and link keys [2, 4] the merge
heuristic produces exactly the mapping 1 → link 2's URL, 3 → link 4's URL
(each recorded under both positional index and logical key), and media key 5
receives no mapping because the link pool is exhausted; wrap-around only
reuses the first remaining (unconsumed) pool entry while links remain. -/
theorem C1_media_link_map_example :
    buildMediaLinkMap (some exMergeMap) =
      [(0, "https://link2.example"), (1, "https://link2.example"),
       (2, "https://link4.example"), (3, "https://link4.example")] := by
  decide

/-- C2 (counterexample): in the document whose single block references the
same LINK entity twice, the URL `https://e.example/x` occurs (at least)
twice in the Markdown output of `formatArticleMarkdown` — inline hyperlink
URLs are not recorded in the used-URL set, so the claimed document-wide
uniqueness fails. -/
theorem C2_counterexample :
    2 ≤ countOccs "https://e.example/x" (formatArticleMarkdown exDupLinkArticle {}).markdown := by
  decide

/-- C6 (counterexample): `summarizeTweetText` does not collapse internal
whitespace that is not part of a newline run — "a  b" keeps its double
space, contradicting the claim that internal whitespace is collapsed to
single spaces. -/
theorem C6_counterexample :
    summarizeTweetText (some "a  b") = "a  b"
    ∧ summarizeTweetText (some "a  b") ≠ "a b" := by
  decide

/-- C8: a blank separator line is emitted between two emitted chunks unless
both share the same kind and that kind is list, quote, or media; and the
block sequence [header-one "Title", unordered-list "A", unordered-list "B",
header-two "Next"] renders as '# Title', blank, '- A', '- B', blank,
'## Next' with no blank line between the list items. -/
theorem C8_block_grouping :
    (∀ (st : RenderState) (bl : List String) (kind : String),
      pushBlock st bl kind =
        if bl.isEmpty then st
        else if ¬st.lines.isEmpty ∧ st.previousKind.isSome ∧
            ¬(st.previousKind = some kind ∧ (kind = "list" ∨ kind = "quote" ∨ kind = "media"))
          then { st with lines := st.lines ++ [""] ++ bl, previousKind := some kind }
          else { st with lines := st.lines ++ bl, previousKind := some kind })
    ∧ (renderContentBlocks exGroupingBlocks none (buildEntityLookup none) [] [] [] none).1
        = ["# Title", "", "- A", "- B", "", "## Next"] := by
  constructor
  · intro st bl kind
    by_cases h1 : bl.isEmpty
    · simp [pushBlock, h1]
    · simp [pushBlock, h1]
      split <;> simp_all
  · decide

/-- C9: an input with none of the recognizable document fields (no string
title, plain text or preview text, and no content state) makes
`formatArticleMarkdown` return exactly a fenced JSON code block holding the
pretty-printed input, with a null cover URL; for the empty object the block
contains exactly `\x7b\x7d`. -/
theorem C9_json_fallback :
    (∀ (a : ArticleEntity) (opts : FormatArticleOptions),
      a.title = none → a.plain_text = none → a.preview_text = none → a.content_state = none →
      formatArticleMarkdown a opts =
        ⟨"```json\n" ++ jsonStringifyArticle a ++ "\n```", none⟩)
    ∧ formatArticleMarkdown exEmptyArticle {} = ⟨"```json\n\x7b\x7d\n```", none⟩ := by
  constructor
  · intro a opts h1 h2 h3 h4
    unfold formatArticleMarkdown coerceArticleEntity
    simp [h1, h2, h3, h4]
  · decide

/-- C9 witness: the fallback equation discharged at the empty document. -/
theorem C9_json_fallback_witness :
    formatArticleMarkdown exEmptyArticle {} =
      ⟨"```json\n" ++ jsonStringifyArticle exEmptyArticle ++ "\n```", none⟩ :=
  C9_json_fallback.1 exEmptyArticle {} rfl rfl rfl rfl

/-- C10: a valid range (numeric key, numeric offset, positive length) whose
offset lies at or beyond the current text length is neither an error nor
skipped: the extracted slice is empty and the hyperlink `[](url)` is
appended at the end of the string. -/
theorem C10_out_of_range_total :
    ∀ (text : String) (k o ℓ : Int) (em : EntityMap) (lookup : EntityLookup)
      (mlm : List (Int × String)) (entry : ArticleEntityMapEntry) (v : EntityValue)
      (d : EntityData) (u : String),
      (text.length : Int) ≤ o → 0 < ℓ →
      resolveEntityEntry (some k) (some em) lookup = some entry →
      entry.value = some v → v.type = "LINK" → v.data = some d → d.url = some u → u ≠ "" →
      renderInlineLinks text [⟨some k, some o, some ℓ⟩] (some em) lookup mlm
        = text ++ "[](" ++ u ++ ")" := by
  intro text k o ℓ em lookup mlm entry v d u ho hℓ hres hval hty hdata hurl hu
  have hlen : text.length = text.data.length := rfl
  have hvalid : validInlineRange ⟨some k, some o, some ℓ⟩ = true := by
    simp [validInlineRange, hℓ]
  have hzero : jsClampIdx text.data.length 0 = 0 := by
    simp [jsClampIdx]
  have hlen0 : jsClampIdx text.data.length o = text.data.length := by
    unfold jsClampIdx
    rw [if_neg (by omega)]
    omega
  have hlen1 : jsClampIdx text.data.length (o + ℓ) = text.data.length := by
    unfold jsClampIdx
    rw [if_neg (by omega)]
    omega
  unfold renderInlineLinks
  rw [if_neg (by simp)]
  simp only [List.filter_cons, hvalid, if_pos, List.filter_nil]
  rw [if_neg (by simp)]
  simp only [List.insertionSort, List.orderedInsert, List.foldl_cons, List.foldl_nil]
  unfold inlineRangeStep
  simp only [Option.getD_some, hres, hval]
  rw [if_pos (by simp [hty, hdata, hurl])]
  have htr : truthyStr (v.data.bind (fun dd => dd.url)) = some u := by
    simp [hdata, hurl, truthyStr, hu]
  rw [htr]
  unfold jsSlice jsSliceFrom
  rw [hzero, hlen0, hlen1]
  have htake : List.take text.length text.data = text.data := by
    rw [hlen]; simp
  have hdrop : List.drop text.length text.data = ([] : List Char) := by
    rw [hlen]; simp
  apply String.ext
  simp [htake, hdrop]

/-- C10 witness: an offset of 5 on the two-character text "ab" appends
`[](https://u.example)` at the end. -/
theorem C10_out_of_range_total_witness :
    renderInlineLinks "ab" [⟨some 0, some 5, some 3⟩] (some exTwoLinkMap)
      (buildEntityLookup (some exTwoLinkMap)) []
      = "ab" ++ "[](" ++ "https://u.example" ++ ")" :=
  C10_out_of_range_total "ab" 0 5 3 exTwoLinkMap (buildEntityLookup (some exTwoLinkMap)) []
    ⟨some "0", some (exLinkValue "https://u.example")⟩ (exLinkValue "https://u.example")
    ⟨some "https://u.example", none, none, none⟩ "https://u.example"
    (by decide) (by decide) (by decide) rfl rfl rfl rfl (by decide)

/-- Getting a key right after `Map.set` of that key yields the stored value. -/
theorem mapGet_mapSet_self {κ α : Type} [DecidableEq κ] (m : List (κ × α)) (k : κ) (v : α) :
    mapGet (mapSet m k v) k = some v := by
  induction m with
  | nil => simp [mapGet, mapSet]
  | cons p m ih =>
    by_cases hp : p.1 = k
    · simp [mapGet, mapSet, List.any_cons, hp]
    · by_cases hm : m.any (fun q => q.1 = k)
      · have ih' := ih
        simp only [mapGet, mapSet, if_pos hm] at ih'
        simp [mapGet, mapSet, List.any_cons, hp, hm] at ih' ⊢
        exact ih'
      · have ih' := ih
        simp only [mapGet, mapSet, if_neg hm] at ih'
        simp [mapGet, mapSet, List.any_cons, hp, hm] at ih' ⊢
        exact ih'

/-- Overwriting key `k` in place does not change `find?` for another key. -/
theorem find?_overwrite_ne {κ α : Type} [DecidableEq κ] (m : List (κ × α)) (k k' : κ) (v : α)
    (h : k' ≠ k) :
    (m.map (fun p => if p.1 = k then (k, v) else p)).find? (fun p => p.1 = k')
      = m.find? (fun p => p.1 = k') := by
  induction m with
  | nil => rfl
  | cons p m ih =>
    by_cases hp : p.1 = k
    · rw [List.map_cons, if_pos hp, List.find?_cons, List.find?_cons]
      simp [hp, Ne.symm h, ih]
    · by_cases hp' : p.1 = k'
      · rw [List.map_cons, if_neg hp, List.find?_cons, List.find?_cons]
        simp [hp']
      · rw [List.map_cons, if_neg hp, List.find?_cons, List.find?_cons]
        simp [hp', ih]

/-- Appending a binding for key `k` does not change `find?` for another key. -/
theorem find?_append_ne {κ α : Type} [DecidableEq κ] (m : List (κ × α)) (k k' : κ) (v : α)
    (h : k' ≠ k) :
    (m ++ [(k, v)]).find? (fun p => p.1 = k') = m.find? (fun p => p.1 = k') := by
  induction m with
  | nil => simp [List.find?_cons, Ne.symm h]
  | cons p m ih =>
    by_cases hp' : p.1 = k'
    · simp [List.find?_cons, hp']
    · simp [List.find?_cons, hp', ih]

/-- Updating one key with `Map.set` leaves other keys unchanged. -/
theorem mapGet_mapSet_ne {κ α : Type} [DecidableEq κ] (m : List (κ × α)) (k k' : κ) (v : α)
    (h : k' ≠ k) : mapGet (mapSet m k v) k' = mapGet m k' := by
  unfold mapGet mapSet
  by_cases hm : m.any (fun p => p.1 = k)
  · rw [if_pos hm, find?_overwrite_ne m k k' v h]
  · rw [if_neg hm, find?_append_ne m k k' v h]

/-- Ids not in the remaining list keep their binding through the resolver
fold. -/
theorem resolveFold_not_mem (fetch : String → Except String FetchedTweet) :
    ∀ (ids : List String) (acc : List (String × ReferencedTweetInfo) × List String) (id : String),
      id ∉ ids →
      mapGet (ids.foldl (resolveTweetStep fetch) acc).1 id = mapGet acc.1 id := by
  intro ids
  induction ids with
  | nil => intro acc id _; rfl
  | cons a ids ih =>
    intro acc id h
    have ha : id ≠ a := fun hh => h (hh ▸ List.mem_cons_self a ids)
    have hids : id ∉ ids := fun hh => h (List.mem_cons_of_mem a hh)
    rw [List.foldl_cons, ih _ _ hids]
    unfold resolveTweetStep
    cases hf : fetch a <;> simp [mapGet_mapSet_ne _ _ _ _ ha]

/-- Every id of the list ends up bound to the record determined by its own
lookup result. -/
theorem resolveFold_mem (fetch : String → Except String FetchedTweet) :
    ∀ (ids : List String) (acc : List (String × ReferencedTweetInfo) × List String) (id : String),
      id ∈ ids →
      mapGet (ids.foldl (resolveTweetStep fetch) acc).1 id
        = some (match fetch id with
                | .ok t => extractReferencedTweetInfo t id
                | .error _ => ⟨id, "https://x.com/i/web/status/" ++ id, none, none, none⟩) := by
  intro ids
  induction ids with
  | nil => intro acc id h; simp at h
  | cons a ids ih =>
    intro acc id h
    by_cases hid : id ∈ ids
    · exact ih _ _ hid
    · have : id = a := by
        rcases List.mem_cons.mp h with h' | h'
        · exact h'
        · exact absurd h' hid
      subst this
      rw [List.foldl_cons, resolveFold_not_mem fetch ids _ id hid]
      unfold resolveTweetStep
      cases hf : fetch id <;> simp [hf, mapGet_mapSet_self]

/-- Log lines already emitted survive the rest of the fold. -/
theorem resolveFold_logs_mono (fetch : String → Except String FetchedTweet) :
    ∀ (ids : List String) (acc : List (String × ReferencedTweetInfo) × List String) (x : String),
      x ∈ acc.2 → x ∈ (ids.foldl (resolveTweetStep fetch) acc).2 := by
  intro ids
  induction ids with
  | nil => intro acc x h; exact h
  | cons a ids ih =>
    intro acc x h
    rw [List.foldl_cons]
    apply ih
    unfold resolveTweetStep
    cases fetch a <;> simp [h]

/-- A failing id contributes its log line. -/
theorem resolveFold_log_mem (fetch : String → Except String FetchedTweet) :
    ∀ (ids : List String) (acc : List (String × ReferencedTweetInfo) × List String) (id e : String),
      id ∈ ids → fetch id = .error e →
      ("[x-to-markdown] Failed to fetch referenced tweet " ++ id ++ ": " ++ e)
        ∈ (ids.foldl (resolveTweetStep fetch) acc).2 := by
  intro ids
  induction ids with
  | nil => intro acc id e h _; simp at h
  | cons a ids ih =>
    intro acc id e h hf
    by_cases hid : id ∈ ids
    · exact ih _ _ _ hid hf
    · have : id = a := by
        rcases List.mem_cons.mp h with h' | h'
        · exact h'
        · exact absurd h' hid
      subst this
      rw [List.foldl_cons]
      apply resolveFold_logs_mono
      unfold resolveTweetStep
      rw [hf]
      simp

/-- C7: a referenced tweet id whose external lookup fails is stored as the
degraded record holding only the id and the generic id-only URL, the failure
is logged, and every extracted id (failing or not) still receives a record:
one failure never aborts resolution of the rest. -/
theorem C7_referenced_failure_isolation :
    ∀ (article : ArticleEntity) (fetch : String → Except String FetchedTweet) (id e : String),
      id ∈ extractReferencedTweetIds article →
      fetch id = .error e →
      mapGet (resolveReferencedTweetsFromArticle article fetch).1 id
          = some ⟨id, "https://x.com/i/web/status/" ++ id, none, none, none⟩
      ∧ ("[x-to-markdown] Failed to fetch referenced tweet " ++ id ++ ": " ++ e)
          ∈ (resolveReferencedTweetsFromArticle article fetch).2
      ∧ (∀ id2 ∈ extractReferencedTweetIds article,
          (mapGet (resolveReferencedTweetsFromArticle article fetch).1 id2).isSome = true) := by
  intro article fetch id e hmem hf
  refine ⟨?_, ?_, ?_⟩
  · rw [resolveReferencedTweetsFromArticle, resolveFold_mem fetch _ _ _ hmem, hf]
  · exact resolveFold_log_mem fetch _ _ _ _ hmem hf
  · intro id2 h2
    rw [resolveReferencedTweetsFromArticle, resolveFold_mem fetch _ _ _ h2]
    rfl

/-- C7 witness: looking up the non-existent id "999" with a failing fetch
yields the degraded record and the log line, and resolution completes. -/
theorem C7_referenced_failure_isolation_witness :
    mapGet (resolveReferencedTweetsFromArticle exTweetArticle exFailingFetch).1 "999"
        = some ⟨"999", "https://x.com/i/web/status/" ++ "999", none, none, none⟩
    ∧ ("[x-to-markdown] Failed to fetch referenced tweet " ++ "999" ++ ": " ++ "HTTP 404")
        ∈ (resolveReferencedTweetsFromArticle exTweetArticle exFailingFetch).2
    ∧ (∀ id2 ∈ extractReferencedTweetIds exTweetArticle,
        (mapGet (resolveReferencedTweetsFromArticle exTweetArticle exFailingFetch).1 id2).isSome
          = true) :=
  C7_referenced_failure_isolation exTweetArticle exFailingFetch "999" "HTTP 404" (by decide) rfl

/-- The logical-key map built by `buildEntityLookupAux` binds a key to the
first remaining entry declaring it, unless the accumulator already binds it. -/
theorem byLogicalKey_aux (k : Int) :
    ∀ (rest : List (Nat × ArticleEntityMapEntry)) (lk : EntityLookup),
      mapGet (buildEntityLookupAux rest lk).byLogicalKey k
        = match mapGet lk.byLogicalKey k with
          | some e => some e
          | none =>
            (rest.find? (fun p => parseIntJS (p.2.key.getD "") = some k)).map (fun p => p.2) := by
  intro rest
  induction rest with
  | nil =>
    intro lk
    cases h : mapGet lk.byLogicalKey k <;> simp [buildEntityLookupAux, h]
  | cons pe rest ih =>
    intro lk
    obtain ⟨idx, entry⟩ := pe
    rw [buildEntityLookupAux]
    cases hp : parseIntJS (entry.key.getD "") with
    | none =>
      rw [ih]
      cases h : mapGet lk.byLogicalKey k <;> simp [List.find?_cons, hp, h]
    | some pk =>
      by_cases hhas : (mapGet lk.byLogicalKey pk).isSome = true
      · simp only [hhas, if_pos]
        rw [ih]
        by_cases hpk : pk = k
        · subst hpk
          rcases Option.isSome_iff_exists.mp hhas with ⟨e, he⟩
          simp [he]
        · have : ¬ (parseIntJS (entry.key.getD "") = some k) := by
            rw [hp]; simp [hpk]
          cases h : mapGet lk.byLogicalKey k <;> simp [List.find?_cons, hp, hpk, h]
      · simp only [hhas, if_neg, Bool.not_eq_true]
        rw [ih]
        by_cases hpk : pk = k
        · subst hpk
          have hnone : mapGet lk.byLogicalKey pk = none := by
            cases h : mapGet lk.byLogicalKey pk
            · rfl
            · rw [h] at hhas; simp at hhas
          simp [mapGet_mapSet_self, hnone, List.find?_cons, hp]
        · rw [mapGet_mapSet_ne _ _ _ _ (fun hh => hpk hh.symm)]
          cases h : mapGet lk.byLogicalKey k <;> simp [List.find?_cons, hp, hpk, h]

/-- C5: with a duplicated logical key, resolution returns the
first-declared entry; and resolution reports not-found exactly when
logical-key lookup, positional-index lookup and raw map access all fail. -/
theorem C5_entity_resolution :
    (∀ (em : EntityMap) (k : Int) (p : Nat × ArticleEntityMapEntry),
      em.find? (fun q => parseIntJS (q.2.key.getD "") = some k) = some p →
      resolveEntityEntry (some k) (some em) (buildEntityLookup (some em)) = some p.2)
    ∧ (∀ (em : EntityMap) (k : Int),
      resolveEntityEntry (some k) (some em) (buildEntityLookup (some em)) = none ↔
        mapGet (buildEntityLookup (some em)).byLogicalKey k = none
        ∧ mapGet (buildEntityLookup (some em)).byIndex k = none
        ∧ rawEntityGet em k = none) := by
  constructor
  · intro em k p hfind
    have h := byLogicalKey_aux k em ⟨[], []⟩
    have h0 : mapGet (EntityLookup.mk [] []).byLogicalKey k = none := rfl
    simp only [h0] at h
    rw [hfind] at h
    simp only [resolveEntityEntry, buildEntityLookup]
    rw [h]
    simp
  · intro em k
    rw [resolveEntityEntry]
    cases h1 : mapGet (buildEntityLookup (some em)).byLogicalKey k with
    | some e => simp [h1]
    | none =>
      cases h2 : mapGet (buildEntityLookup (some em)).byIndex k with
      | some e => simp [h1, h2]
      | none => simp [h1, h2]

/-- C5 witness: with logical key 7 declared by both entries of
`exDupKeyMap`, resolution returns the first-declared entry, and resolving key
7 indeed does not report not-found. -/
theorem C5_entity_resolution_witness :
    resolveEntityEntry (some 7) (some exDupKeyMap) (buildEntityLookup (some exDupKeyMap))
      = some ⟨some "7", some (exLinkValue "https://first.example")⟩ :=
  C5_entity_resolution.1 exDupKeyMap 7
    (0, ⟨some "7", some (exLinkValue "https://first.example")⟩) (by decide)

/-- The length of a slice from 0 to a nonnegative `n` is `min n.toNat
(length)`. -/
theorem jsSlice_zero_len (s : String) (n : Int) (hn : 0 ≤ n) :
    (jsSlice s 0 n).length = min n.toNat s.length := by
  simp only [jsSlice, jsClampIdx, String.length_mk, List.length_take, List.length_drop]
  rw [if_neg (by omega), if_neg (by omega)]
  rw [show s.length = s.data.length from rfl]
  omega

/-- C6 (amended): the summary never exceeds 280 characters, and when the
normalized text (newline runs collapsed to single spaces via per-line
trimming) exceeds 280 characters the result is its first 277 characters
followed by "..." — exactly 280 characters. -/
theorem C6_summarize_bound :
    (∀ (text : Option String), (summarizeTweetText text).length ≤ 280)
    ∧ (∀ t : String, jsTrim t ≠ "" → 280 < (normalizeTweetText (jsTrim t)).length →
        summarizeTweetText (some t)
          = jsSlice (normalizeTweetText (jsTrim t)) 0 277 ++ "..."
        ∧ (summarizeTweetText (some t)).length = 280) := by
  constructor
  · intro text
    cases text with
    | none => simp [summarizeTweetText]
    | some t =>
      simp only [summarizeTweetText]
      by_cases h : jsTrim t = ""
      · simp [h]
      · rw [if_neg h]
        by_cases h2 : (normalizeTweetText (jsTrim t)).length ≤ 280
        · rw [if_pos h2]; exact h2
        · rw [if_neg h2, String.length_append]
          have hs := jsSlice_zero_len (normalizeTweetText (jsTrim t)) 277 (by omega)
          have h3 : ("..." : String).length = 3 := rfl
          omega
  · intro t h1 h2
    constructor
    · simp only [summarizeTweetText]
      rw [if_neg h1, if_neg (by omega)]
    · simp only [summarizeTweetText]
      rw [if_neg h1, if_neg (by omega), String.length_append]
      have hs := jsSlice_zero_len (normalizeTweetText (jsTrim t)) 277 (by omega)
      have h3 : ("..." : String).length = 3 := rfl
      omega

set_option maxRecDepth 8000 in
/-- C6 witness: a 300-character text is summarized to exactly its first 277
characters plus "...", within the 280-character bound. -/
theorem C6_summarize_bound_witness :
    (summarizeTweetText (some (String.mk (List.replicate 300 'a')))).length ≤ 280
    ∧ summarizeTweetText (some (String.mk (List.replicate 300 'a')))
        = jsSlice (normalizeTweetText (jsTrim (String.mk (List.replicate 300 'a')))) 0 277
            ++ "..." :=
  ⟨C6_summarize_bound.1 _, (C6_summarize_bound.2 _ (by decide) (by decide)).1⟩

/-- Membership in `setAdd`. -/
theorem mem_setAdd {s : List String} {u x : String} :
    x ∈ setAdd s u ↔ x ∈ s ∨ x = u := by
  unfold setAdd setHas
  by_cases hu : u ∈ s
  · rw [if_pos (by simpa [List.contains] using hu)]
    constructor
    · exact Or.inl
    · intro h
      rcases h with h | h
      · exact h
      · rw [h]; exact hu
  · rw [if_neg (by simpa [List.contains] using hu)]
    simp

/-- The filter `truthyStr` never rewrites: a produced value is the stored one. -/
theorem truthyStr_eq_some {o : Option String} {u : String} (h : truthyStr o = some u) :
    o = some u := by
  cases o with
  | none => simp [truthyStr] at h
  | some s =>
    by_cases hs : s = "" <;> simp [truthyStr, hs] at h
    rw [h]

/-- One `addUrl` step of `collectMediaUrls` preserves the gallery invariant:
collected URLs are distinct, recorded in the used set, outside the initial
used set, and distinct from the (truthy) excluded URL. -/
theorem addUrlCMU_inv (excl : Option String) (used : List String)
    (st : List String × List String) (url : Option String)
    (h1 : st.1.Nodup) (h2 : ∀ u ∈ st.1, u ∈ st.2) (h3 : ∀ u ∈ used, u ∈ st.2)
    (h4 : ∀ u ∈ st.1, u ∉ used ∧ truthyStr excl ≠ some u) :
    (addUrlCMU excl st url).1.Nodup
    ∧ (∀ u ∈ (addUrlCMU excl st url).1, u ∈ (addUrlCMU excl st url).2)
    ∧ (∀ u ∈ used, u ∈ (addUrlCMU excl st url).2)
    ∧ (∀ u ∈ (addUrlCMU excl st url).1, u ∉ used ∧ truthyStr excl ≠ some u) := by
  cases htr : truthyStr url with
  | none =>
    unfold addUrlCMU
    simp only [htr]
    exact ⟨h1, h2, h3, h4⟩
  | some u =>
    unfold addUrlCMU
    simp only [htr]
    by_cases hexcl : (truthyStr excl).isSome = true ∧ excl = some u
    · rw [if_pos hexcl]
      refine ⟨h1, ?_, ?_, h4⟩
      · intro x hx; exact mem_setAdd.mpr (Or.inl (h2 x hx))
      · intro x hx; exact mem_setAdd.mpr (Or.inl (h3 x hx))
    · rw [if_neg hexcl]
      by_cases hhas : setHas st.2 u = true
      · rw [if_pos hhas]
        exact ⟨h1, h2, h3, h4⟩
      · rw [if_neg hhas]
        have hu2 : u ∉ st.2 := by
          intro hm
          exact hhas (by simpa [setHas, List.contains] using hm)
        have hu1 : u ∉ st.1 := fun hm => hu2 (h2 u hm)
        have huused : u ∉ used := fun hm => hu2 (h3 u hm)
        have huexcl : truthyStr excl ≠ some u := by
          intro he
          exact hexcl ⟨by rw [he]; rfl, truthyStr_eq_some he⟩
        refine ⟨?_, ?_, ?_, ?_⟩
        · simp [List.nodup_append, h1, hu1]
        · intro x hx
          rcases List.mem_append.mp hx with hx | hx
          · exact mem_setAdd.mpr (Or.inl (h2 x hx))
          · simp at hx
            rw [hx]; exact mem_setAdd.mpr (Or.inr rfl)
        · intro x hx; exact mem_setAdd.mpr (Or.inl (h3 x hx))
        · intro x hx
          rcases List.mem_append.mp hx with hx | hx
          · exact h4 x hx
          · simp at hx
            rw [hx]; exact ⟨huused, huexcl⟩

/-- The invariant carried through the whole `collectMediaUrls` fold. -/
theorem collectMediaUrls_fold_inv (excl : Option String) (used : List String) :
    ∀ (ents : List ArticleMediaEntity) (st : List String × List String),
      st.1.Nodup → (∀ u ∈ st.1, u ∈ st.2) → (∀ u ∈ used, u ∈ st.2) →
      (∀ u ∈ st.1, u ∉ used ∧ truthyStr excl ≠ some u) →
      (ents.foldl (fun s e => addUrlCMU excl s (resolveMediaUrl e.media_info)) st).1.Nodup
      ∧ (∀ u ∈ (ents.foldl (fun s e => addUrlCMU excl s (resolveMediaUrl e.media_info)) st).1,
          u ∉ used ∧ truthyStr excl ≠ some u) := by
  intro ents
  induction ents with
  | nil => intro st h1 h2 h3 h4; exact ⟨h1, h4⟩
  | cons e ents ih =>
    intro st h1 h2 h3 h4
    rw [List.foldl_cons]
    obtain ⟨g1, g2, g3, g4⟩ := addUrlCMU_inv excl used st (resolveMediaUrl e.media_info) h1 h2 h3 h4
    exact ih _ g1 g2 g3 g4

/-- C2 (amended): the gallery URL list returned by `collectMediaUrls` has no
duplicates, avoids every URL already recorded in the used set (cover and
media image lines), and avoids the truthy excluded cover URL. -/
theorem C2_gallery_dedup :
    ∀ (article : ArticleEntity) (used : List String) (excl : Option String),
      (collectMediaUrls article used excl).1.Nodup
      ∧ ∀ u ∈ (collectMediaUrls article used excl).1,
          u ∉ used ∧ truthyStr excl ≠ some u := by
  intro article used excl
  unfold collectMediaUrls
  exact collectMediaUrls_fold_inv excl used _ ([], used)
    List.nodup_nil (by intro u h; simp at h) (fun u h => h) (by intro u h; simp at h)

/-- C2 witness: on a document with media URLs [a, a, b] and the used set
["https://c.example"], the gallery is duplicate-free and `https://a.example`
is neither in the prior used set nor the excluded URL. -/
theorem C2_gallery_dedup_witness :
    (collectMediaUrls exGalleryArticle ["https://c.example"] none).1.Nodup
    ∧ ("https://a.example" ∉ (["https://c.example"] : List String)
        ∧ truthyStr none ≠ some "https://a.example") :=
  ⟨(C2_gallery_dedup exGalleryArticle ["https://c.example"] none).1,
   (C2_gallery_dedup exGalleryArticle ["https://c.example"] none).2
     "https://a.example" (by decide)⟩

/-- The recursion `takeFirstGreaterLink` is `findIndex` followed by `splice`: it returns
the element at the found index and the pool with that index removed. -/
theorem takeFirstGreaterLink_eq (mkey : Int) :
    ∀ (pool : List LinkEnt),
      takeFirstGreaterLink mkey pool
        = (pool.findIdx? (fun l => mkey < l.key)).bind
            (fun i => pool[i]?.map (fun l => (l, pool.eraseIdx i))) := by
  intro pool
  induction pool with
  | nil => rfl
  | cons l ls ih =>
    by_cases h : mkey < l.key
    · simp [takeFirstGreaterLink, List.findIdx?_cons, h]
    · rw [takeFirstGreaterLink, if_neg h, ih, List.findIdx?_cons,
        if_neg (by simpa using h), List.findIdx?_start_succ]
      cases hf : ls.findIdx? (fun l => decide (mkey < l.key)) with
      | none => simp
      | some i =>
        cases hg : ls[i]? with
        | none => simp [hg]
        | some x => simp [hg]

/-- The consumption rule worded by the spec coincides with the
`findIndex`/`splice` step of the code, for a non-empty pool. -/
theorem specConsumeLink_eq (mkey : Int) (p : LinkEnt) (ps : List LinkEnt) :
    specConsumeLink mkey (p :: ps)
      = some ((p :: ps).getD (((p :: ps).findIdx? (fun l => mkey < l.key)).getD 0) p,
              (p :: ps).eraseIdx (((p :: ps).findIdx? (fun l => mkey < l.key)).getD 0)) := by
  rw [specConsumeLink, takeFirstGreaterLink_eq]
  cases hf : (p :: ps).findIdx? (fun l => mkey < l.key) with
  | none => simp
  | some i =>
    have hb := List.findIdx?_eq_some_iff_getElem.mp hf
    obtain ⟨hlt, _, _⟩ := hb
    have hg : (p :: ps)[i]? = some ((p :: ps).get ⟨i, hlt⟩) := by
      rw [List.getElem?_eq_getElem hlt]
      rfl
    simp [hg, List.getD_eq_getElem?_getD]

/-- The pairing loops of code and spec coincide. -/
theorem mlmLoop_eq_specPairLoop :
    ∀ (ms : List MediaEnt) (pool : List LinkEnt) (m : List (Int × String)),
      mlmLoop ms pool m = specPairLoop ms pool m := by
  intro ms
  induction ms with
  | nil => intro pool m; cases pool <;> rfl
  | cons media ms ih =>
    intro pool m
    cases pool with
    | nil => rfl
    | cons p ps =>
      rw [mlmLoop, specPairLoop, specConsumeLink_eq]
      simp only []
      rw [ih]

/-- C4: `buildMediaLinkMap` implements exactly the pairing rule of the spec:
media processed in ascending key order, each consuming the first remaining
link with a strictly greater key (else the first remaining link), recording
the URL under the media's key and positional index, with later media getting
nothing once the pool is exhausted and an empty map when there are no links. -/
theorem C4_media_link_pairing :
    ∀ (entityMap : Option EntityMap), buildMediaLinkMap entityMap = specMediaLinkMap entityMap := by
  intro em?
  cases em? with
  | none => rfl
  | some em =>
    rw [buildMediaLinkMap, specMediaLinkMap]
    by_cases hm : (mediaEntriesOf em).isEmpty
    · rw [if_pos (Or.inl hm)]
      have : mediaEntriesOf em = [] := by simpa [List.isEmpty_iff] using hm
      rw [this]
      rfl
    · by_cases hl : (linkEntriesOf em).isEmpty
      · rw [if_pos (Or.inr hl)]
        have : linkEntriesOf em = [] := by simpa [List.isEmpty_iff] using hl
        rw [this]
        cases hms : List.insertionSort (fun a b => a.key ≤ b.key) (mediaEntriesOf em) <;> rfl
      · rw [if_neg (by simp [hm, hl])]
        exact mlmLoop_eq_specPairLoop _ _ _

/-- C3 (counterexample): two ranges with equal offsets — the list
[exRangeB, exRangeA] is a permutation of [exRangeA, exRangeB], both are in
(non-strictly) descending offset order, yet `renderInlineLinks` produces
different strings for them: the result is not independent of the input
order of the ranges. -/
theorem C3_counterexample :
    ([exRangeB, exRangeA] : List EntityRange).Perm [exRangeA, exRangeB]
    ∧ List.Pairwise (fun a b => (b.offset.getD 0 : Int) ≤ a.offset.getD 0) [exRangeA, exRangeB]
    ∧ List.Pairwise (fun a b => (b.offset.getD 0 : Int) ≤ a.offset.getD 0) [exRangeB, exRangeA]
    ∧ renderInlineLinks "ab" [exRangeB, exRangeA] (some exTwoLinkMap)
        (buildEntityLookup (some exTwoLinkMap)) []
      ≠ renderInlineLinks "ab" [exRangeA, exRangeB] (some exTwoLinkMap)
        (buildEntityLookup (some exTwoLinkMap)) [] := by
  refine ⟨List.Perm.swap exRangeA exRangeB [], by decide, by decide, by decide⟩

/-- Two lists that are permutations of each other, both sorted by
non-increasing `f`-value, with pairwise-distinct `f`-values, are equal. -/
theorem eq_of_perm_sorted_nodup {α : Type} (f : α → Int) :
    ∀ (l₁ l₂ : List α), l₁.Perm l₂ →
      l₁.Sorted (fun a b => f b ≤ f a) → l₂.Sorted (fun a b => f b ≤ f a) →
      (l₁.map f).Nodup → l₁ = l₂ := by
  intro l₁
  induction l₁ with
  | nil =>
    intro l₂ hp _ _ _
    exact hp.nil_eq
  | cons a t₁ ih =>
    intro l₂ hp hs₁ hs₂ hnd
    cases l₂ with
    | nil => exact absurd hp.eq_nil (by simp)
    | cons b t₂ =>
      have hab : a = b := by
        by_contra hne
        have ha2 : a ∈ b :: t₂ := hp.mem_iff.mp (List.mem_cons_self a t₁)
        have hat2 : a ∈ t₂ := by
          rcases List.mem_cons.mp ha2 with h | h
          · exact absurd h hne
          · exact h
        have hb1 : b ∈ a :: t₁ := hp.mem_iff.mpr (List.mem_cons_self b t₂)
        have hbt1 : b ∈ t₁ := by
          rcases List.mem_cons.mp hb1 with h | h
          · exact absurd h.symm hne
          · exact h
        have h1 : f b ≤ f a := List.rel_of_sorted_cons hs₁ b hbt1
        have h2 : f a ≤ f b := List.rel_of_sorted_cons hs₂ a hat2
        have hmem : f a ∈ t₁.map f := by
          rw [le_antisymm h2 h1]
          exact List.mem_map_of_mem f hbt1
        rw [List.map_cons, List.nodup_cons] at hnd
        exact hnd.1 hmem
      subst hab
      have hnd' : (t₁.map f).Nodup := by
        rw [List.map_cons, List.nodup_cons] at hnd
        exact hnd.2
      rw [ih t₂ hp.cons_inv hs₁.of_cons hs₂.of_cons hnd']

/-- C3 (amended): when the valid ranges carry pairwise-distinct offsets,
`renderInlineLinks` yields the same string for every input order of the
ranges (in particular for descending-offset order); with duplicated offsets
the stable sort preserves input order among ties and the output can differ. -/
theorem C3_order_independence :
    ∀ (text : String) (em? : Option EntityMap) (lookup : EntityLookup)
      (mlm : List (Int × String)) (rs₁ rs₂ : List EntityRange),
      rs₁.Perm rs₂ →
      ((rs₁.filter validInlineRange).map (fun r => r.offset.getD 0)).Nodup →
      renderInlineLinks text rs₁ em? lookup mlm = renderInlineLinks text rs₂ em? lookup mlm := by
  intro text em? lookup mlm rs₁ rs₂ hperm hnd
  haveI hTot : IsTotal EntityRange (fun a b => (b.offset.getD 0 : Int) ≤ a.offset.getD 0) :=
    ⟨fun a b => Int.le_total _ _⟩
  haveI hTrans : IsTrans EntityRange (fun a b => (b.offset.getD 0 : Int) ≤ a.offset.getD 0) :=
    ⟨fun _ _ _ hab hbc => le_trans hbc hab⟩
  by_cases hem : em?.isNone
  · simp only [renderInlineLinks]
    rw [if_pos (Or.inl hem), if_pos (Or.inl hem)]
  · by_cases h0 : rs₁.isEmpty
    · have h0' : rs₂.isEmpty := by
        rw [List.isEmpty_iff] at h0 ⊢
        rw [h0] at hperm
        exact hperm.nil_eq.symm
      simp only [renderInlineLinks]
      rw [if_pos (Or.inr h0), if_pos (Or.inr h0')]
    · have h0' : ¬ rs₂.isEmpty := by
        rw [List.isEmpty_iff] at h0 ⊢
        intro hh
        rw [hh] at hperm
        exact h0 hperm.eq_nil
      have hv : (rs₁.filter validInlineRange).Perm (rs₂.filter validInlineRange) :=
        hperm.filter _
      by_cases hve : (rs₁.filter validInlineRange).isEmpty
      · have hve' : (rs₂.filter validInlineRange).isEmpty := by
          rw [List.isEmpty_iff] at hve ⊢
          rw [hve] at hv
          exact hv.nil_eq.symm
        simp only [renderInlineLinks]
        rw [if_neg (not_or.mpr ⟨hem, h0⟩), if_neg (not_or.mpr ⟨hem, h0'⟩),
          if_pos hve, if_pos hve']
      · have hve' : ¬ (rs₂.filter validInlineRange).isEmpty := by
          rw [List.isEmpty_iff] at hve ⊢
          intro hh
          rw [hh] at hv
          exact hve hv.eq_nil
        have hps : (List.insertionSort (fun a b => (b.offset.getD 0 : Int) ≤ a.offset.getD 0)
              (rs₁.filter validInlineRange)).Perm
            (List.insertionSort (fun a b => (b.offset.getD 0 : Int) ≤ a.offset.getD 0)
              (rs₂.filter validInlineRange)) :=
          ((List.perm_insertionSort _ _).trans hv).trans (List.perm_insertionSort _ _).symm
        have hnds : ((List.insertionSort (fun a b => (b.offset.getD 0 : Int) ≤ a.offset.getD 0)
            (rs₁.filter validInlineRange)).map (fun r => r.offset.getD 0)).Nodup := by
          refine (List.Perm.nodup_iff ?_).mpr hnd
          exact List.Perm.map _ (List.perm_insertionSort _ _)
        have heq := eq_of_perm_sorted_nodup (fun r => r.offset.getD 0) _ _ hps
          (List.sorted_insertionSort _ _) (List.sorted_insertionSort _ _) hnds
        simp only [renderInlineLinks]
        rw [if_neg (not_or.mpr ⟨hem, h0⟩), if_neg (not_or.mpr ⟨hem, h0'⟩),
          if_neg hve, if_neg hve']
        rw [heq]

/-- C3 witness: a concrete application with distinct offsets 0 and 1. -/
theorem C3_order_independence_witness :
    renderInlineLinks "ab" [⟨some 1, some 1, some 1⟩, ⟨some 0, some 0, some 1⟩]
        (some exTwoLinkMap) (buildEntityLookup (some exTwoLinkMap)) []
      = renderInlineLinks "ab" [⟨some 0, some 0, some 1⟩, ⟨some 1, some 1, some 1⟩]
        (some exTwoLinkMap) (buildEntityLookup (some exTwoLinkMap)) [] :=
  C3_order_independence "ab" (some exTwoLinkMap) (buildEntityLookup (some exTwoLinkMap)) []
    [⟨some 1, some 1, some 1⟩, ⟨some 0, some 0, some 1⟩]
    [⟨some 0, some 0, some 1⟩, ⟨some 1, some 1, some 1⟩]
    (List.Perm.swap (⟨some 0, some 0, some 1⟩ : EntityRange) ⟨some 1, some 1, some 1⟩ [])
    (by decide)
